import Mathlib

/-!
Verification of the inference-serving core of the `model-llm.acc` repository:
the model registry (`src/llm/model_registry.py`), the inference pipeline with
its dynamic batch scheduler, memory governor and response cache
(`src/llm/inference_pipeline.py`), and the round-robin load balancer
(`src/llm/deployment/model_server.py`).

The Python code is shallowly embedded: every method becomes a Lean function
over an explicit state record.  Machine integers are modelled as `Nat`/`Int`;
Python float arithmetic (the `0.8` batching margin, the `0.9` memory
threshold) is idealized as exact rational arithmetic, written in cross-
multiplied integer form so that all definitions evaluate by kernel reduction.
`datetime.now()` timestamps and the external filesystem / CUDA allocator are
passed in as explicit inputs.
-/

namespace ModelLLM

/-- Association-list lookup, modelling Python `dict[k]` / `k in dict`
(keys are unique in every list we build, as in a `dict`). -/
def alookup {κ β : Type} [DecidableEq κ] (k : κ) : List (κ × β) → Option β
  | [] => none
  | (k2, v) :: rest => if k2 = k then some v else alookup k rest

/-- Association-list insert-or-replace, modelling Python `dict[k] = v`. -/
def aupsert {κ β : Type} [DecidableEq κ] (k : κ) (v : β) : List (κ × β) → List (κ × β)
  | [] => [(k, v)]
  | (k2, v2) :: rest => if k2 = k then (k, v) :: rest else (k2, v2) :: aupsert k v rest

/-- Association-list removal, modelling Python `del dict[k]`. -/
def aremove {κ β : Type} [DecidableEq κ] (k : κ) : List (κ × β) → List (κ × β)
  | [] => []
  | (k2, v) :: rest => if k2 = k then rest else (k2, v) :: aremove k rest

theorem alookup_mem {κ β : Type} [DecidableEq κ] {k : κ} {v : β} :
    ∀ {l : List (κ × β)}, alookup k l = some v → (k, v) ∈ l := by
  intro l
  induction l with
  | nil => intro h; simp [alookup] at h
  | cons kv rest ih =>
    obtain ⟨k2, v2⟩ := kv
    intro h
    by_cases hk : k2 = k
    · subst hk
      simp only [alookup, if_true, eq_self_iff_true, if_pos, Option.some.injEq] at h
      subst h; exact List.mem_cons_self _ _
    · simp only [alookup, if_neg hk] at h
      exact List.mem_cons_of_mem _ (ih h)

theorem mem_aupsert {κ β : Type} [DecidableEq κ] {k : κ} {v : β} {x : κ × β} :
    ∀ {l : List (κ × β)}, x ∈ aupsert k v l → x = (k, v) ∨ x ∈ l := by
  intro l
  induction l with
  | nil => intro h; simp [aupsert] at h; exact Or.inl h
  | cons kv rest ih =>
    intro h
    obtain ⟨k2, v2⟩ := kv
    by_cases hk : k2 = k
    · simp only [aupsert, if_pos hk] at h
      rcases List.mem_cons.mp h with h1 | h1
      · exact Or.inl h1
      · exact Or.inr (List.mem_cons_of_mem _ h1)
    · simp only [aupsert, if_neg hk] at h
      rcases List.mem_cons.mp h with h1 | h1
      · exact Or.inr (h1 ▸ List.mem_cons_self _ _)
      · rcases ih h1 with h2 | h2
        · exact Or.inl h2
        · exact Or.inr (List.mem_cons_of_mem _ h2)

theorem mem_aremove {κ β : Type} [DecidableEq κ] {k : κ} {x : κ × β} :
    ∀ {l : List (κ × β)}, x ∈ aremove k l → x ∈ l := by
  intro l
  induction l with
  | nil => intro h; simp [aremove] at h
  | cons kv rest ih =>
    intro h
    obtain ⟨k2, v2⟩ := kv
    by_cases hk : k2 = k
    · simp only [aremove, if_pos hk] at h
      exact List.mem_cons_of_mem _ h
    · simp only [aremove, if_neg hk] at h
      rcases List.mem_cons.mp h with h1 | h1
      · exact h1 ▸ List.mem_cons_self _ _
      · exact List.mem_cons_of_mem _ (ih h1)

theorem alookup_aupsert_self {κ β : Type} [DecidableEq κ] (k : κ) (v : β) :
    ∀ (l : List (κ × β)), alookup k (aupsert k v l) = some v := by
  intro l
  induction l with
  | nil => simp [alookup, aupsert]
  | cons kv rest ih =>
    obtain ⟨k2, v2⟩ := kv
    by_cases hk : k2 = k
    · simp [aupsert, alookup, hk]
    · simp [aupsert, alookup, hk, ih]

/-- Lexicographic comparison of char lists by code point, the order Python
uses to compare `str` values (`sorted`, `max`).  Written as a `Bool`-valued
structural recursion so it evaluates by kernel reduction. -/
def charListLe : List Char → List Char → Bool
  | [], _ => true
  | _ :: _, [] => false
  | a :: as, b :: bs =>
    if a.toNat = b.toNat then charListLe as bs
    else decide (a.toNat ≤ b.toNat)

/-- String comparison by code points, as in Python. -/
def strLe (a b : String) : Bool := charListLe a.data b.data

theorem charListLe_total (a b : List Char) :
    charListLe a b = true ∨ charListLe b a = true := by
  induction a generalizing b with
  | nil => exact Or.inl rfl
  | cons x xs ih =>
    cases b with
    | nil => exact Or.inr rfl
    | cons y ys =>
      by_cases h : x.toNat = y.toNat
      · simp only [charListLe, if_pos h, if_pos h.symm]
        exact ih ys
      · simp only [charListLe, if_neg h, if_neg (Ne.symm h)]
        rcases Nat.le_total x.toNat y.toNat with h1 | h1
        · exact Or.inl (by simpa using h1)
        · exact Or.inr (by simpa using h1)

theorem char_toNat_inj {a b : Char} (h : a.toNat = b.toNat) : a = b := by
  apply Char.ext
  apply UInt32.ext
  simpa [Char.toNat, UInt32.toNat] using h

theorem charListLe_antisymm {a b : List Char}
    (hab : charListLe a b = true) (hba : charListLe b a = true) : a = b := by
  induction a generalizing b with
  | nil =>
    cases b with
    | nil => rfl
    | cons y ys => simp [charListLe] at hba
  | cons x xs ih =>
    cases b with
    | nil => simp [charListLe] at hab
    | cons y ys =>
      by_cases h : x.toNat = y.toNat
      · have hx : x = y := char_toNat_inj h
        subst hx
        simp only [charListLe, if_pos rfl] at hab hba
        rw [ih hab hba]
      · simp only [charListLe, if_neg h, if_neg (Ne.symm h), decide_eq_true_eq] at hab hba
        omega

theorem charListLe_trans {a b c : List Char}
    (hab : charListLe a b = true) (hbc : charListLe b c = true) :
    charListLe a c = true := by
  induction a generalizing b c with
  | nil => rfl
  | cons x xs ih =>
    cases b with
    | nil => simp [charListLe] at hab
    | cons y ys =>
      cases c with
      | nil => simp [charListLe] at hbc
      | cons z zs =>
        by_cases hxy : x.toNat = y.toNat
        · by_cases hyz : y.toNat = z.toNat
          · have hxz : x.toNat = z.toNat := hxy.trans hyz
            simp only [charListLe, if_pos hxy] at hab
            simp only [charListLe, if_pos hyz] at hbc
            simp only [charListLe, if_pos hxz]
            exact ih hab hbc
          · simp only [charListLe, if_neg hyz, decide_eq_true_eq] at hbc
            have hxz : ¬ x.toNat = z.toNat := by omega
            simp only [charListLe, if_neg hxz, decide_eq_true_eq]
            omega
        · simp only [charListLe, if_neg hxy, decide_eq_true_eq] at hab
          by_cases hyz : y.toNat = z.toNat
          · have hxz : ¬ x.toNat = z.toNat := by omega
            simp only [charListLe, if_neg hxz, decide_eq_true_eq]
            omega
          · simp only [charListLe, if_neg hyz, decide_eq_true_eq] at hbc
            have hxz : ¬ x.toNat = z.toNat := by omega
            simp only [charListLe, if_neg hxz, decide_eq_true_eq]
            omega

/-- Worker for `chunkList`, written with a fuel argument (the list length
at the top call, which bounds the number of chunks) so the recursion is
structural and evaluates by kernel reduction. -/
def chunkListFuel {α : Type} (k : Nat) : Nat → List α → List (List α)
  | _, [] => []
  | 0, _ :: _ => []
  | fuel + 1, x :: xs =>
    match k with
    | 0 => []
    | m + 1 => ((x :: xs).take (m + 1)) :: chunkListFuel k fuel (xs.drop m)

/-- The `inputs[i:i+k]` slicing loop shared by `_batch_inputs` and
`_dynamic_batch`: split a list into consecutive chunks of size `k`
(the final chunk may be shorter).  For `k = 0` Python `range(0, n, 0)`
raises `ValueError`; the callers below only reach the chunking with
`k ≥ 1`, and the model returns no batches in that degenerate case. -/
def chunkList {α : Type} (k : Nat) (l : List α) : List (List α) :=
  chunkListFuel k l.length l

theorem chunkListFuel_length_bounds {α : Type} {k : Nat} (hk : 1 ≤ k) :
    ∀ (fuel : Nat) (l : List α), ∀ b ∈ chunkListFuel k fuel l,
      1 ≤ b.length ∧ b.length ≤ k := by
  intro fuel
  induction fuel with
  | zero =>
    intro l b hb
    cases l with
    | nil => simp [chunkListFuel] at hb
    | cons x xs => simp [chunkListFuel] at hb
  | succ fuel ih =>
    intro l b hb
    cases l with
    | nil => simp [chunkListFuel] at hb
    | cons x xs =>
      obtain ⟨m, rfl⟩ : ∃ m, k = m + 1 := ⟨k - 1, by omega⟩
      simp only [chunkListFuel] at hb
      rcases List.mem_cons.mp hb with h1 | h1
      · subst h1
        constructor
        · simp only [List.length_take, List.length_cons]; omega
        · simp only [List.length_take, List.length_cons]; omega
      · exact ih (xs.drop m) b h1

theorem chunkList_length_bounds {α : Type} {k : Nat} (hk : 1 ≤ k)
    (l : List α) : ∀ b ∈ chunkList k l, 1 ≤ b.length ∧ b.length ≤ k :=
  chunkListFuel_length_bounds hk l.length l

/-!
## Artifact directories and `_calculate_model_hash`

An artifact directory is a tree: each directory holds a list of
(filename, byte content) pairs and a list of named subdirectories.  The
order of the two lists is the enumeration order the filesystem reports to
`os.walk` (which yields files and subdirectories in unspecified order;
the code sorts only the filenames of each directory, not the directory
order).  File bytes are `List Nat` (byte values).
-/

inductive FSTree : Type where
  | dir (files : List (String × List Nat)) (subdirs : List (String × FSTree))

def FSTree.files : FSTree → List (String × List Nat)
  | .dir fs _ => fs

/-- Ordering of directory entries by filename, by code point — the order of
Python `sorted(files)` (filenames within one directory are unique). -/
def fileLe (a b : String × List Nat) : Prop := charListLe a.1.data b.1.data = true

instance : DecidableRel fileLe := fun a b =>
  inferInstanceAs (Decidable (charListLe a.1.data b.1.data = true))

instance : IsTotal (String × List Nat) fileLe :=
  ⟨fun a b => charListLe_total a.1.data b.1.data⟩

instance : IsTrans (String × List Nat) fileLe :=
  ⟨fun _ _ _ hab hbc => charListLe_trans hab hbc⟩

/-- `for file in sorted(files)` of `_calculate_model_hash`. -/
def sortFilesByName (files : List (String × List Nat)) : List (String × List Nat) :=
  List.insertionSort fileLe files

mutual

/-- The byte stream `_calculate_model_hash` feeds into the cumulative
SHA-256 hasher while it walks the tree top-down: for each directory, the
bytes of its files in sorted filename order (reading a file in 4096-byte
chunks concatenates back to the file's bytes), then each subdirectory in
the order `os.walk` enumerates it.  The digest itself is abstracted as
this exact stream: equal streams give equal digests. -/
def walk_stream : FSTree → List Nat
  | .dir files subdirs =>
    (sortFilesByName files).flatMap Prod.snd ++ walk_subdirs subdirs

/-- Byte stream of a list of subdirectories, in enumeration order. -/
def walk_subdirs : List (String × FSTree) → List Nat
  | [] => []
  | (_, t) :: rest => walk_stream t ++ walk_subdirs rest

end

/-- `_calculate_model_hash(model_path)`: the content hash of the artifact
directory, modelled as the full byte stream run through the digest. -/
def calculate_model_hash (t : FSTree) : List Nat := walk_stream t

mutual

/-- The byte content of an artifact tree: every (relative path, file bytes)
pair.  Two artifact copies have "identical byte content" when these lists
are equal up to permutation. -/
def content_list : FSTree → List (List String × List Nat)
  | .dir files subdirs =>
    files.map (fun f => ([f.1], f.2)) ++ content_subdirs subdirs

/-- Content of a list of subdirectories, paths extended with the
directory name. -/
def content_subdirs : List (String × FSTree) → List (List String × List Nat)
  | [] => []
  | (n, t) :: rest =>
    (content_list t).map (fun pb => (n :: pb.1, pb.2)) ++ content_subdirs rest

end

/-- `_validate_model_files`: the three required files exist in the artifact
directory. -/
def validate_model_files (t : FSTree) : Bool :=
  ["config.json", "pytorch_model.bin", "tokenizer.json"].all
    (fun f => (alookup f t.files).isSome)

/-!
## ModelRegistry (`src/llm/model_registry.py`)

The registry catalog maps a model name to its versions, each version to a
model-info record (the persisted JSON document `registry.json`; persistence
I/O is assumed to succeed).  The active-model cache maps `"name:version"`
keys to loaded handles.  The runtime model/tokenizer objects materialized
by `from_pretrained` are represented by a fresh `handle_id` drawn from a
counter, so "same handle instance" is `handle_id` equality; a
`materialize_ok` input says whether `from_pretrained` succeeds (its failure
is caught and turned into `None`).  `datetime.now()` is an explicit `now`
input.
-/

structure ModelInfo where
  name : String
  version : String
  path : String
  model_hash : List Nat
  registered_at : Nat
  metadata : List (String × String)
  status : String
deriving DecidableEq

structure LoadedModel where
  handle_id : Nat
  info : ModelInfo
  device : String
deriving DecidableEq

structure RegistryState where
  registry : List (String × List (String × ModelInfo))
  active_models : List (String × LoadedModel)
  next_handle_id : Nat
deriving DecidableEq

def initRegistry : RegistryState :=
  { registry := [], active_models := [], next_handle_id := 0 }

/-- Python `max(versions.keys())` (code-point string order; `None` when the
dict is empty, where `max` raises and the surrounding `except` returns
`None`). -/
def max_version_key {β : Type} : List (String × β) → Option String
  | [] => none
  | (k, _) :: rest =>
    some (rest.foldl (fun acc kv => if strLe kv.1 acc then acc else kv.1) k)

/-- `_get_model_info(model_name, version)`.  A falsy `version` (Python
`None`, modelled as `none`) selects `max(versions.keys())`. -/
def get_model_info (registry : List (String × List (String × ModelInfo)))
    (model_name : String) (version : Option String) : Option ModelInfo :=
  match alookup model_name registry with
  | none => none
  | some versions =>
    match (match version with | some v => some v | none => max_version_key versions) with
    | none => none
    | some v => alookup v versions

def model_key (model_name version : String) : String :=
  model_name ++ ":" ++ version

/-- `register_model(model_name, model_path, version, metadata)`.
`artifact` is the filesystem content at `model_path`. -/
def register_model (s : RegistryState) (model_name model_path : String)
    (artifact : FSTree) (version : String) (metadata : List (String × String))
    (now : Nat) : Bool × RegistryState :=
  if ¬ validate_model_files artifact then (false, s)
  else
    let info : ModelInfo :=
      { name := model_name, version := version, path := model_path,
        model_hash := calculate_model_hash artifact, registered_at := now,
        metadata := metadata, status := "registered" }
    let versions := (alookup model_name s.registry).getD []
    (true, { s with registry := aupsert model_name (aupsert version info versions) s.registry })

/-- `load_model(model_name, version, device)`. -/
def load_model (s : RegistryState) (model_name : String) (version : Option String)
    (device : String) (materialize_ok : Bool) : Option LoadedModel × RegistryState :=
  match get_model_info s.registry model_name version with
  | none => (none, s)
  | some info =>
    let key := model_key model_name info.version
    match alookup key s.active_models with
    | some lm => (some lm, s)
    | none =>
      if materialize_ok then
        let lm : LoadedModel :=
          { handle_id := s.next_handle_id, info := info, device := device }
        (some lm,
         { s with active_models := aupsert key lm s.active_models,
                  next_handle_id := s.next_handle_id + 1 })
      else (none, s)

/-- `unload_model(model_name, version)`. -/
def unload_model (s : RegistryState) (model_name : String)
    (version : Option String) : Bool × RegistryState :=
  match get_model_info s.registry model_name version with
  | none => (false, s)
  | some info =>
    (true, { s with active_models := aremove (model_key model_name info.version) s.active_models })

/-- One registry operation, with its external inputs (filesystem content,
clock, materialization success). -/
inductive RegOp : Type where
  | register (model_name model_path : String) (artifact : FSTree)
      (version : String) (metadata : List (String × String)) (now : Nat)
  | load (model_name : String) (version : Option String) (device : String)
      (materialize_ok : Bool)
  | unload (model_name : String) (version : Option String)

def apply_op (s : RegistryState) : RegOp → RegistryState
  | .register n p a v m now => (register_model s n p a v m now).2
  | .load n v d ok => (load_model s n v d ok).2
  | .unload n v => (unload_model s n v).2

def run_ops (s : RegistryState) (ops : List RegOp) : RegistryState :=
  ops.foldl apply_op s

/-!
## InferencePipeline (`src/llm/inference_pipeline.py`)

`generate` and its helpers are embedded as state-passing functions over
`PipelineState`.  External effects are explicit inputs: the opaque
`model.generate`/tokenizer computation is an `oracle` giving, per prompt
of the batch, the decoded text and the length of the output token tensor;
`from_pretrained` success is `materialize_ok`; wall-clock latency is a
parameter.  Python float arithmetic (thresholds `0.9`, margin `0.8`) is
idealized as exact rational arithmetic written in integer form
(`threshold_num / threshold_den`, cross-multiplied comparisons,
`Int.tdiv` for `int()` truncation toward zero).
-/

/-- The `**kwargs` of `generate`, with the keys the code reads.  Note the
`model_name` and `version` arguments of `generate` are named parameters,
so they are never part of `**kwargs`. -/
structure GenKwargs where
  max_length : Option Nat := none
  temperature : Option ℚ := none
  top_p : Option ℚ := none
  top_k : Option Nat := none
  num_sequences : Option Nat := none
  do_sample : Option Bool := none
deriving DecidableEq

/-- The `gen_kwargs` dict `_generate_optimized` builds (defaults filled
in): exactly what reaches `model.generate`. -/
structure ResolvedKwargs where
  max_length : Nat
  num_return_sequences : Nat
  temperature : ℚ
  top_p : ℚ
  top_k : Nat
  do_sample : Bool
deriving DecidableEq

/-- One call of the model's opaque `generate` capability: the batch of
prompts it received and the sampling parameters passed to it. -/
structure Invocation where
  batch : List String
  kwargs : ResolvedKwargs
deriving DecidableEq

/-- One element of the result list of `generate`. -/
structure GenResult where
  prompt : String
  generated : String
  tokens : Nat
  finish_reason : String
deriving DecidableEq

/-- The key `_check_cache` builds: `(tuple(prompts),
kwargs.get('model_name', default_model), kwargs.get('version',
default_version), frozenset(kwargs.items()))`.  Since `**kwargs` never
contains `model_name`/`version`, those components always take the
pipeline defaults. -/
structure CacheKey where
  prompts : List String
  model_name : Option String
  version : String
  params : GenKwargs
deriving DecidableEq

/-- CUDA allocator counters (`torch.cuda.*` readings), plus the allocator
cache `empty_cache()` frees. -/
structure GpuState where
  total_memory : Nat
  allocated : Nat
  max_allocated : Nat
  cached_bytes : Nat
deriving DecidableEq

/-- One entry of `metrics['memory_usage']` (timestamp omitted: it is an
external clock reading). -/
structure MemSample where
  system_memory : Nat
  gpu_memory : Nat
deriving DecidableEq

structure PipelineState where
  reg_state : RegistryState
  max_batch_size : Nat
  max_length : Nat
  default_model : Option String
  default_version : String
  use_cuda : Bool
  device : String
  fp16 : Bool
  cache_models : Bool
  dynamic_batching : Bool
  min_batch_size : Nat
  threshold_num : Nat
  threshold_den : Nat
  optimize_for_inference : Bool
  tokenization_cache : List (CacheKey × List GenResult)
  optimized_models : List String
  total_requests : Nat
  total_tokens : Nat
  avg_latency : ℚ
  cache_hits : Nat
  memory_usage : List MemSample
  batch_sizes : List Nat
  gpu : GpuState
  host_percent : Nat
  gc_runs : Nat
  model_invocations : List Invocation

/-- `InferencePipeline.__init__` with an empty config: the source
defaults (`max_batch_size=32`, `max_length=512`,
`default_version='latest'`, `cache_models=True`, `dynamic_batching=True`,
`min_batch_size=1`, `memory_threshold=0.9`,
`optimize_for_inference=True`), caches and metrics empty.  `use_cuda`,
the allocator counters and the host memory percentage are environment
inputs. -/
def default_pipeline (reg : RegistryState) (use_cuda : Bool) (gpu : GpuState)
    (host_percent : Nat) (default_model : Option String) : PipelineState :=
  { reg_state := reg, max_batch_size := 32, max_length := 512,
    default_model := default_model, default_version := "latest",
    use_cuda := use_cuda, device := if use_cuda then "cuda" else "cpu",
    fp16 := use_cuda, cache_models := true, dynamic_batching := true,
    min_batch_size := 1, threshold_num := 9, threshold_den := 10,
    optimize_for_inference := true, tokenization_cache := [],
    optimized_models := [], total_requests := 0, total_tokens := 0,
    avg_latency := 0, cache_hits := 0, memory_usage := [],
    batch_sizes := [], gpu := gpu, host_percent := host_percent,
    gc_runs := 0, model_invocations := [] }

/-- `_manage_memory`: under memory pressure clear the allocator cache and
run garbage collection, then append a metrics sample.  The float
comparisons `allocated / max_allocated > threshold` and
`host_percent > threshold * 100` are written cross-multiplied, which is
exact. -/
def manage_memory (p : PipelineState) : PipelineState :=
  let pressured := p.use_cuda ∧ 0 < p.gpu.max_allocated ∧
    p.gpu.allocated * p.threshold_den > p.threshold_num * p.gpu.max_allocated
  let gpu1 := if pressured then { p.gpu with cached_bytes := 0 } else p.gpu
  let gc1 := if pressured then p.gc_runs + 1 else p.gc_runs
  let gc2 := if p.host_percent * p.threshold_den > p.threshold_num * 100
    then gc1 + 1 else gc1
  { p with gpu := gpu1, gc_runs := gc2,
           memory_usage := p.memory_usage ++
             [{ system_memory := p.host_percent,
                gpu_memory := if p.use_cuda then p.gpu.allocated else 0 }] }

/-- `_batch_inputs`: fixed-size slicing into chunks of `max_batch_size`. -/
def batch_inputs (max_batch_size : Nat) (inputs : List String) : List (List String) :=
  chunkList max_batch_size inputs

/-- `_dynamic_batch`.  On the CUDA path with prior history, the code sets
`avg_memory_per_input = memory_allocated / sum(batch_sizes)` and
`optimal = max(min(int(free / avg * 0.8), max_batch_size),
min_batch_size)`; `int(free / avg * 0.8)` equals the truncated quotient
`tdiv (free * sum * 4) (allocated * 5)` in exact arithmetic.  A
`ZeroDivisionError` (empty-history sum 0 or `memory_allocated == 0`) is
caught and falls back to `_batch_inputs`; a zero `optimal` makes the
chunking `range` raise after the history append, also falling back. -/
def dynamic_batch (p : PipelineState) (inputs : List String) :
    List (List String) × PipelineState :=
  if ¬ p.use_cuda then (batch_inputs p.max_batch_size inputs, p)
  else
    let free : Int := (p.gpu.total_memory : Int) - (p.gpu.allocated : Int)
    match p.batch_sizes with
    | [] =>
      let k := p.max_batch_size
      (chunkList k inputs, { p with batch_sizes := p.batch_sizes ++ [k] })
    | _ :: _ =>
      if p.batch_sizes.sum = 0 ∨ p.gpu.allocated = 0 then
        (batch_inputs p.max_batch_size inputs, p)
      else
        let cand : Int :=
          Int.tdiv (free * (p.batch_sizes.sum : Int) * 4) ((p.gpu.allocated : Int) * 5)
        let opt : Int := max (min cand (p.max_batch_size : Int)) (p.min_batch_size : Int)
        let k : Nat := opt.toNat
        (if k = 0 then batch_inputs p.max_batch_size inputs else chunkList k inputs,
         { p with batch_sizes := p.batch_sizes ++ [k] })

/-- The registry call and one-time optimization pass of
`_load_and_optimize_model`, after the name and version defaults have been
resolved. -/
def load_and_optimize_core (p : PipelineState) (name ver : String)
    (materialize_ok : Bool) : Option LoadedModel × PipelineState :=
  let res := load_model p.reg_state name (some ver) p.device materialize_ok
  let p1 := { p with reg_state := res.2 }
  match res.1 with
  | none => (none, p1)
  | some h =>
    let key := name ++ ":" ++ ver
    if p1.optimize_for_inference ∧ ¬ p1.optimized_models.contains key then
      (some h, { p1 with optimized_models := p1.optimized_models ++ [key] })
    else (some h, p1)

/-- `_load_and_optimize_model`: fall back to the pipeline defaults
(Python `or`), load via the registry, and apply the one-time optimization
pass recorded in the `optimized_models` seen-set. -/
def load_and_optimize_model (p : PipelineState) (model_name version : Option String)
    (materialize_ok : Bool) : Option LoadedModel × PipelineState :=
  let name? := match model_name with | some n => some n | none => p.default_model
  let ver := match version with | some v => v | none => p.default_version
  match name? with
  | none => (none, p)
  | some name => load_and_optimize_core p name ver materialize_ok

/-- The `gen_kwargs` defaults of `_generate_optimized`
(`max_length` ↦ pipeline `max_length`, `num_return_sequences` ↦ 1,
`temperature` ↦ 0.7, `top_p` ↦ 0.9, `top_k` ↦ 50, `do_sample` ↦ True). -/
def resolve_gen_kwargs (p : PipelineState) (kw : GenKwargs) : ResolvedKwargs :=
  { max_length := kw.max_length.getD p.max_length,
    num_return_sequences := kw.num_sequences.getD 1,
    temperature := kw.temperature.getD (7 / 10),
    top_p := kw.top_p.getD (9 / 10),
    top_k := kw.top_k.getD 50,
    do_sample := kw.do_sample.getD true }

/-- `_generate_optimized` for one batch: build `gen_kwargs`, invoke the
model (recorded in the invocation trace), decode, and format results. -/
def generate_optimized (p : PipelineState)
    (oracle : List String → ResolvedKwargs → List (String × Nat))
    (batch : List String) (kw : GenKwargs) : List GenResult × PipelineState :=
  let rk := resolve_gen_kwargs p kw
  let outs := oracle batch rk
  let results := (batch.zip outs).map fun pr_o =>
    { prompt := pr_o.1, generated := pr_o.2.1, tokens := pr_o.2.2,
      finish_reason := if rk.max_length ≤ pr_o.2.2 then "length" else "stop" }
  (results, { p with model_invocations := p.model_invocations ++ [{ batch := batch, kwargs := rk }] })

/-- The `for batch in batches` loop of `generate`. -/
def process_batches (p : PipelineState)
    (oracle : List String → ResolvedKwargs → List (String × Nat))
    (batches : List (List String)) (kw : GenKwargs) : List GenResult × PipelineState :=
  match batches with
  | [] => ([], p)
  | b :: rest =>
    let (r, p1) := generate_optimized p oracle b kw
    let (rs, p2) := process_batches p1 oracle rest kw
    (r ++ rs, p2)

/-- `_check_cache`: look the key up in `tokenization_cache`; a hit bumps
`cache_hits`. -/
def check_cache (p : PipelineState) (prompts : List String) (kw : GenKwargs) :
    Option (List GenResult) × PipelineState :=
  match alookup
      ({ prompts := prompts, model_name := p.default_model,
         version := p.default_version, params := kw } : CacheKey)
      p.tokenization_cache with
  | some r => (some r, { p with cache_hits := p.cache_hits + 1 })
  | none => (none, p)

/-- `_update_metrics`.  `none` models the `ZeroDivisionError` raised when
the updated `total_requests` is zero. -/
def update_metrics (p : PipelineState) (num_requests : Nat)
    (results : List GenResult) (latency : ℚ) : Option PipelineState :=
  if p.total_requests + num_requests = 0 then none
  else some { p with
    total_requests := p.total_requests + num_requests,
    total_tokens := p.total_tokens + (results.map (·.tokens)).sum,
    avg_latency := (p.avg_latency *
        (((p.total_requests + num_requests : Nat) : ℚ) - (num_requests : ℚ)) + latency) /
      ((p.total_requests + num_requests : Nat) : ℚ) }

/-- Python `f"{opt}"` for an optional string (`None` prints as "None"). -/
def pyShowOpt : Option String → String
  | some s => s
  | none => "None"

/-- The part of `generate` after the cache check: load the model (a `None`
handle raises `ValueError`), batch, run every batch, update metrics. -/
def generate_uncached (p : PipelineState)
    (oracle : List String → ResolvedKwargs → List (String × Nat))
    (materialize_ok : Bool) (latency : ℚ) (prompts : List String)
    (model_name version : Option String) (kw : GenKwargs) :
    Except String (List GenResult) × PipelineState :=
  match load_and_optimize_model p model_name version materialize_ok with
  | (none, p1) =>
    (Except.error ("Failed to load model " ++ pyShowOpt model_name ++ ":" ++ pyShowOpt version), p1)
  | (some _, p1) =>
    let (batches, p2) :=
      if p1.dynamic_batching then dynamic_batch p1 prompts
      else (batch_inputs p1.max_batch_size prompts, p1)
    let (results, p3) := process_batches p2 oracle batches kw
    match update_metrics p3 prompts.length results latency with
    | none => (Except.error "ZeroDivisionError", p3)
    | some p4 => (Except.ok results, p4)

/-- `generate` (a single-string prompt is wrapped into a list before this
point).  Memory management, then the response-cache check (a non-empty
cached value returns immediately; note the code only ever reads
`tokenization_cache`), then the uncached path. -/
def generate (p : PipelineState)
    (oracle : List String → ResolvedKwargs → List (String × Nat))
    (materialize_ok : Bool) (latency : ℚ) (prompts : List String)
    (model_name version : Option String) (kw : GenKwargs) :
    Except String (List GenResult) × PipelineState :=
  let p1 := manage_memory p
  if p1.cache_models then
    match check_cache p1 prompts kw with
    | (some cached, p2) =>
      if cached = [] then generate_uncached p2 oracle materialize_ok latency prompts model_name version kw
      else (Except.ok cached, p2)
    | (none, p2) => generate_uncached p2 oracle materialize_ok latency prompts model_name version kw
  else generate_uncached p1 oracle materialize_ok latency prompts model_name version kw

/-!
## LoadBalancer (`src/llm/deployment/model_server.py`)

Replicas are abstract values; `current_server` starts at 0 in
`__init__`.
-/

structure LoadBalancer (α : Type) where
  servers : List α
  current_server : Nat

/-- `get_next_server`: return `servers[current_server]` and advance the
index modulo the list length (the configured replica list always has
`current_server` in bounds, so `getD` never takes its default). -/
def get_next_server {α : Type} [Inhabited α] (lb : LoadBalancer α) :
    α × LoadBalancer α :=
  (lb.servers.getD lb.current_server default,
   { lb with current_server := (lb.current_server + 1) % lb.servers.length })

/-- `n` successive `get_next_server` calls, collecting the returned
replicas in order. -/
def run_dispatcher {α : Type} [Inhabited α] (lb : LoadBalancer α) :
    Nat → List α × LoadBalancer α
  | 0 => ([], lb)
  | n + 1 =>
    let (s, lb1) := get_next_server lb
    let (rest, lb2) := run_dispatcher lb1 n
    (s :: rest, lb2)

/-!
## Theorems
-/

/-- C10: `_manage_memory` (the memory-pressure reclaim) never removes an
entry from the registry's active-model cache and never modifies the
registry catalog, for every starting state. -/
theorem manage_memory_preserves_registry (p : PipelineState) :
    (manage_memory p).reg_state.active_models = p.reg_state.active_models ∧
    (manage_memory p).reg_state.registry = p.reg_state.registry :=
  ⟨rfl, rfl⟩

/-- Concrete pipeline state for the C1 counterexample:
`min_batch_size = max_batch_size = 2`, no CUDA. -/
def pipelineC1 : PipelineState :=
  { default_pipeline initRegistry false ⟨0, 0, 0, 0⟩ 0 none with
      min_batch_size := 2, max_batch_size := 2 }

/-- C1 counterexample: with `min_batch_size = max_batch_size = 2` and a
single submitted prompt, both `_batch_inputs` and `_dynamic_batch`
produce a (final) batch of size 1 < `min_batch_size`, so the claimed
invariant `min_batch_size ≤ size` fails. -/
theorem c1_final_batch_below_min :
    (∃ b ∈ batch_inputs pipelineC1.max_batch_size ["x"],
       b.length < pipelineC1.min_batch_size) ∧
    (∃ b ∈ (dynamic_batch pipelineC1 ["x"]).1,
       b.length < pipelineC1.min_batch_size) := by
  decide

/-- C1 (amended): for configurations with `1 ≤ min_batch_size ≤
max_batch_size`, every batch produced by `_batch_inputs` or
`_dynamic_batch` has size between 1 and `max_batch_size`, and the chunk
size the dynamic scheduler chooses and records lies in
`[min_batch_size, max_batch_size]` — `_dynamic_batch` either falls back
without recording a size (chunking by `max_batch_size`) or appends
exactly one chosen size within those bounds (the fixed path always
chunks by `max_batch_size`).  The `min_batch_size` lower bound does not
hold for the final batch, which may be any size ≥ 1. -/
theorem batch_size_bounds (p : PipelineState) (xs : List String)
    (h1 : 1 ≤ p.min_batch_size) (h2 : p.min_batch_size ≤ p.max_batch_size) :
    (∀ b ∈ batch_inputs p.max_batch_size xs,
       1 ≤ b.length ∧ b.length ≤ p.max_batch_size) ∧
    (∀ b ∈ (dynamic_batch p xs).1,
       1 ≤ b.length ∧ b.length ≤ p.max_batch_size) ∧
    ((dynamic_batch p xs).2.batch_sizes = p.batch_sizes ∨
     ∃ k, (dynamic_batch p xs).2.batch_sizes = p.batch_sizes ++ [k] ∧
       p.min_batch_size ≤ k ∧ k ≤ p.max_batch_size) := by
  have hmax : 1 ≤ p.max_batch_size := le_trans h1 h2
  refine ⟨fun b hb => chunkList_length_bounds hmax xs b hb, ?_, ?_⟩
  · intro b hb
    rw [dynamic_batch] at hb
    split at hb
    · exact chunkList_length_bounds hmax xs b hb
    · rcases hbs : p.batch_sizes with _ | ⟨s0, srest⟩
      · rw [hbs] at hb
        simp only at hb
        exact chunkList_length_bounds hmax xs b hb
      · rw [hbs] at hb
        simp only at hb
        split at hb
        · exact chunkList_length_bounds hmax xs b hb
        · set cand : Int :=
            Int.tdiv (((p.gpu.total_memory : Int) - (p.gpu.allocated : Int)) *
              ((s0 :: srest).sum : Int) * 4) ((p.gpu.allocated : Int) * 5) with hcand
          set k : Nat :=
            (max (min cand (p.max_batch_size : Int)) (p.min_batch_size : Int)).toNat with hkdef
          have hk1 : 1 ≤ k := by
            have : (p.min_batch_size : Int) ≤
                max (min cand (p.max_batch_size : Int)) (p.min_batch_size : Int) :=
              le_max_right _ _
            omega
          have hk2 : k ≤ p.max_batch_size := by
            have hle : max (min cand (p.max_batch_size : Int)) (p.min_batch_size : Int) ≤
                (p.max_batch_size : Int) :=
              max_le (min_le_right _ _) (by exact_mod_cast h2)
            omega
          split at hb
          · exact chunkList_length_bounds hmax xs b hb
          · exact ⟨(chunkList_length_bounds hk1 xs b hb).1,
                   le_trans (chunkList_length_bounds hk1 xs b hb).2 hk2⟩
  · rw [dynamic_batch]
    split
    · exact Or.inl rfl
    · rcases hbs : p.batch_sizes with _ | ⟨s0, srest⟩
      · simp only
        exact Or.inr ⟨p.max_batch_size, rfl, h2, le_refl _⟩
      · simp only
        split
        · exact Or.inl hbs
        · set cand : Int :=
            Int.tdiv (((p.gpu.total_memory : Int) - (p.gpu.allocated : Int)) *
              ((s0 :: srest).sum : Int) * 4) ((p.gpu.allocated : Int) * 5) with hcand
          set k : Nat :=
            (max (min cand (p.max_batch_size : Int)) (p.min_batch_size : Int)).toNat with hkdef
          have hkmin : p.min_batch_size ≤ k := by
            have : (p.min_batch_size : Int) ≤
                max (min cand (p.max_batch_size : Int)) (p.min_batch_size : Int) :=
              le_max_right _ _
            omega
          have hkmax : k ≤ p.max_batch_size := by
            have hle : max (min cand (p.max_batch_size : Int)) (p.min_batch_size : Int) ≤
                (p.max_batch_size : Int) :=
              max_le (min_le_right _ _) (by exact_mod_cast h2)
            omega
          exact Or.inr ⟨k, rfl, hkmin, hkmax⟩

/-- Pipeline state for the C1 witness: defaults with
`max_batch_size = 2`. -/
def pipelineW1 : PipelineState :=
  { default_pipeline initRegistry false ⟨0, 0, 0, 0⟩ 0 none with max_batch_size := 2 }

/-- Witness for `batch_size_bounds` at `min_batch_size = 1`,
`max_batch_size = 2`, three prompts. -/
theorem batch_size_bounds_witness :
    (1 ≤ pipelineW1.min_batch_size ∧ pipelineW1.min_batch_size ≤ pipelineW1.max_batch_size) ∧
    ((∀ b ∈ batch_inputs pipelineW1.max_batch_size ["a", "b", "c"],
        1 ≤ b.length ∧ b.length ≤ pipelineW1.max_batch_size) ∧
     (∀ b ∈ (dynamic_batch pipelineW1 ["a", "b", "c"]).1,
        1 ≤ b.length ∧ b.length ≤ pipelineW1.max_batch_size) ∧
     ((dynamic_batch pipelineW1 ["a", "b", "c"]).2.batch_sizes = pipelineW1.batch_sizes ∨
      ∃ k, (dynamic_batch pipelineW1 ["a", "b", "c"]).2.batch_sizes =
          pipelineW1.batch_sizes ++ [k] ∧
        pipelineW1.min_batch_size ≤ k ∧ k ≤ pipelineW1.max_batch_size)) :=
  ⟨⟨by decide, by decide⟩,
   batch_size_bounds pipelineW1 ["a", "b", "c"] (by decide) (by decide)⟩

/-- The replica returned by the `k`-th call (0-based) from the initial
rotation index `c`: `servers[(c + k) % M]`. -/
theorem run_dispatcher_trace {α : Type} [Inhabited α] :
    ∀ (n : Nat) (lb : LoadBalancer α), lb.current_server < lb.servers.length →
      (run_dispatcher lb n).1 = (List.range n).map
        (fun k => lb.servers.getD ((lb.current_server + k) % lb.servers.length) default) := by
  intro n
  induction n with
  | zero => intro lb h; simp [run_dispatcher]
  | succ n ih =>
    intro lb h
    have hpos : 0 < lb.servers.length := Nat.lt_of_le_of_lt (Nat.zero_le _) h
    have hlt : (lb.current_server + 1) % lb.servers.length < lb.servers.length :=
      Nat.mod_lt _ hpos
    have hrec := ih { lb with current_server := (lb.current_server + 1) % lb.servers.length } hlt
    simp only [run_dispatcher, get_next_server] at hrec ⊢
    rw [hrec, List.range_succ_eq_map, List.map_cons, List.map_map]
    congr 1
    · rw [Nat.add_zero, Nat.mod_eq_of_lt h]
    · apply List.map_congr_left
      intro k _
      simp only [Function.comp_apply]
      rw [Nat.mod_add_mod]
      congr 2
      omega

/-- How many of the first `N` calls pick rotation index `i`:
`N / M` plus one when `i < N % M`. -/
theorem countP_mod_eq {M : Nat} (i : Nat) (hM : 1 ≤ M) (hi : i < M) :
    ∀ N, (List.range N).countP (fun k => k % M == i) =
      N / M + if i < N % M then 1 else 0 := by
  intro N
  induction N with
  | zero => simp
  | succ N ih =>
    rw [List.range_succ, List.countP_append, ih]
    have hqr := Nat.div_add_mod N M
    have hlt : N % M < M := Nat.mod_lt _ (by omega)
    have hsingle : (List.countP (fun k => k % M == i) [N]) =
        if N % M = i then 1 else 0 := by
      simp [List.countP_cons, List.countP_nil]
    rw [hsingle]
    by_cases hcase : N % M + 1 = M
    · have e : N + 1 = M * (N / M + 1) := by
        rw [Nat.mul_add, Nat.mul_one]
        omega
      have hdiv : (N + 1) / M = N / M + 1 := by
        rw [e, Nat.mul_div_cancel_left _ (by omega : 0 < M)]
      have hmod : (N + 1) % M = 0 := by
        rw [e]; exact Nat.mul_mod_right M _
      rw [hdiv, hmod]
      by_cases hir : i < N % M
      · have hne : ¬ N % M = i := by omega
        simp [hir, hne]
      · have heq : N % M = i := by omega
        simp [hir, heq]
    · have e : N + 1 = M * (N / M) + (N % M + 1) := by
        rw [← Nat.add_assoc, hqr]
      have hmlt : N % M + 1 < M := by omega
      have hdiv : (N + 1) / M = N / M := by
        rw [e, Nat.mul_add_div (by omega : 0 < M), Nat.div_eq_of_lt hmlt, Nat.add_zero]
      have hmod : (N + 1) % M = N % M + 1 := by
        rw [e, Nat.mul_add_mod, Nat.mod_eq_of_lt hmlt]
      rw [hdiv, hmod]
      by_cases hir : i < N % M
      · have hne : ¬ N % M = i := by omega
        simp only [hne, if_false, if_true, hir]
        have : i < N % M + 1 := by omega
        simp [this]
      · by_cases heq : N % M = i
        · simp [hir, heq]
        · have : ¬ i < N % M + 1 := by omega
          simp [hir, heq, this]

/-- Ceiling division identity used for the fairness bound: when
`N % M ≠ 0`, `⌈N/M⌉ = N/M + 1`. -/
theorem ceil_div_of_mod_ne_zero {N M : Nat} (hM : 1 ≤ M) (h : N % M ≠ 0) :
    (N + M - 1) / M = N / M + 1 := by
  have hqr := Nat.div_add_mod N M
  have hlt : N % M < M := Nat.mod_lt _ (by omega)
  have e : N + M - 1 = M * (N / M + 1) + (N % M - 1) := by
    rw [Nat.mul_add, Nat.mul_one]
    omega
  have hz : (N % M - 1) / M = 0 := Nat.div_eq_of_lt (by omega)
  rw [e, Nat.mul_add_div (by omega : 0 < M), hz, Nat.add_zero]

/-- C8: starting from the initial rotation index 0, `N` successive
`get_next_server` calls over `M ≥ 1` replicas return the replicas in
strict cyclic order (`servers[k % M]` at the `k`-th call), and every
rotation index `i < M` is chosen exactly `⌊N/M⌋` or `⌈N/M⌉` times. -/
theorem round_robin_fairness {α : Type} [Inhabited α] (lb : LoadBalancer α)
    (N i : Nat) (hM : 1 ≤ lb.servers.length) (h0 : lb.current_server = 0)
    (hi : i < lb.servers.length) :
    (run_dispatcher lb N).1 = (List.range N).map
      (fun k => lb.servers.getD (k % lb.servers.length) default) ∧
    ((List.range N).countP (fun k => k % lb.servers.length == i) = N / lb.servers.length ∨
     (List.range N).countP (fun k => k % lb.servers.length == i) =
       (N + lb.servers.length - 1) / lb.servers.length) := by
  constructor
  · have := run_dispatcher_trace N lb (by omega)
    rw [h0] at this
    simpa using this
  · rw [countP_mod_eq i hM hi N]
    by_cases hir : i < N % lb.servers.length
    · right
      rw [ceil_div_of_mod_ne_zero hM (by omega)]
      simp [hir]
    · left; simp [hir]

/-- Witness for `round_robin_fairness`: two replicas, five calls,
replica index 1 → trace `[s0, s1, s0, s1, s0]` and count `2 = ⌊5/2⌋`. -/
theorem round_robin_fairness_witness :
    (1 ≤ (LoadBalancer.mk ["s0", "s1"] 0).servers.length ∧
       1 < (LoadBalancer.mk ["s0", "s1"] 0).servers.length) ∧
    ((run_dispatcher (LoadBalancer.mk ["s0", "s1"] 0) 5).1 = (List.range 5).map
       (fun k => (LoadBalancer.mk ["s0", "s1"] 0).servers.getD
         (k % (LoadBalancer.mk ["s0", "s1"] 0).servers.length) default) ∧
     ((List.range 5).countP
        (fun k => k % (LoadBalancer.mk ["s0", "s1"] 0).servers.length == 1) =
          5 / (LoadBalancer.mk ["s0", "s1"] 0).servers.length ∨
      (List.range 5).countP
        (fun k => k % (LoadBalancer.mk ["s0", "s1"] 0).servers.length == 1) =
          (5 + (LoadBalancer.mk ["s0", "s1"] 0).servers.length - 1) /
            (LoadBalancer.mk ["s0", "s1"] 0).servers.length)) :=
  ⟨⟨by decide, by decide⟩,
   round_robin_fairness (LoadBalancer.mk ["s0", "s1"] 0) 5 1 (by decide) rfl (by decide)⟩

/-!
### Dynamic batch sizing (C2)
-/

/-- The batch size the claim (and spec §4.3) prescribes when history
exists: estimate `avg = device_bytes_used / previous_batch_size` from the
most recent completed batch, take `candidate =
floor(free / avg * 0.8)` — which is exactly
`(free * prev * 4) / (used * 5)` in natural division — and clamp to
`[min_batch_size, max_batch_size]`.  This definition follows the spec's
words, to be compared with the code's `_dynamic_batch`. -/
def spec_dynamic_size (free_bytes device_bytes_used prev_batch_size
    min_bs max_bs : Nat) : Nat :=
  max (min ((free_bytes * prev_batch_size * 4) / (device_bytes_used * 5)) max_bs) min_bs

/-- The size `_dynamic_batch` actually computes when history exists and no
`ZeroDivisionError` occurs: the same clamp, but the average divides by the
SUM of all recorded batch sizes, not by the most recent one. -/
def code_dynamic_size (p : PipelineState) : Nat :=
  (max (min (Int.tdiv (((p.gpu.total_memory : Int) - (p.gpu.allocated : Int)) *
      (p.batch_sizes.sum : Int) * 4) ((p.gpu.allocated : Int) * 5))
    (p.max_batch_size : Int)) (p.min_batch_size : Int)).toNat

/-- Concrete state for the C2 counterexample: history `[2, 3]`,
12 bytes allocated, 10 bytes free. -/
def pipelineC2 : PipelineState :=
  { default_pipeline initRegistry true ⟨22, 12, 12, 0⟩ 0 none with
      batch_sizes := [2, 3] }

/-- C2 counterexample: with history `[2, 3]`, `device_bytes_used = 12` and
`free = 10`, the claim's formula (divide by the most recent batch size 3)
gives `clamp(floor(10/4 * 0.8)) = 2`, but `_dynamic_batch` records 3,
because the code divides `device_bytes_used` by `sum(batch_sizes) = 5`
rather than by the most recent completed batch size. -/
theorem c2_avg_uses_sum_not_last :
    (dynamic_batch pipelineC2 ["a"]).2.batch_sizes = [2, 3, 3] ∧
    spec_dynamic_size (pipelineC2.gpu.total_memory - pipelineC2.gpu.allocated)
      pipelineC2.gpu.allocated (pipelineC2.batch_sizes.getLastD 0)
      pipelineC2.min_batch_size pipelineC2.max_batch_size = 2 ∧
    (3 : Nat) ≠ 2 := by
  decide

/-- C2 (amended): on the CUDA path, with no prior history `_dynamic_batch`
uses `max_batch_size`; with history (and nonzero sum and allocation) it
records the clamp of `int(free / avg * 0.8)` where
`avg = device_bytes_used / sum(batch_sizes)` — the average is over the
whole recorded history, not the most recent completed batch. -/
theorem dynamic_batch_size_formula (p : PipelineState) (inputs : List String)
    (hc : p.use_cuda = true) :
    (p.batch_sizes = [] → (dynamic_batch p inputs).2.batch_sizes = [p.max_batch_size]) ∧
    (p.batch_sizes ≠ [] → p.batch_sizes.sum ≠ 0 → p.gpu.allocated ≠ 0 →
      (dynamic_batch p inputs).2.batch_sizes = p.batch_sizes ++ [code_dynamic_size p]) := by
  constructor
  · intro hbs
    rw [dynamic_batch, if_neg (by simp [hc])]
    rw [hbs]
    simp
  · intro hne hsum halloc
    rw [dynamic_batch, if_neg (by simp [hc])]
    rcases hbs : p.batch_sizes with _ | ⟨s0, srest⟩
    · exact absurd hbs hne
    · simp only
      rw [if_neg (by rw [← hbs]; exact not_or.mpr ⟨hsum, halloc⟩)]
      rw [code_dynamic_size, ← hbs]

/-- Witness for `dynamic_batch_size_formula` at `pipelineC2`. -/
theorem dynamic_batch_size_formula_witness :
    (pipelineC2.batch_sizes ≠ [] ∧ pipelineC2.batch_sizes.sum ≠ 0 ∧
       pipelineC2.gpu.allocated ≠ 0) ∧
    (dynamic_batch pipelineC2 ["a"]).2.batch_sizes =
      pipelineC2.batch_sizes ++ [code_dynamic_size pipelineC2] :=
  ⟨⟨by decide, by decide, by decide⟩,
   (dynamic_batch_size_formula pipelineC2 ["a"] rfl).2
     (by decide) (by decide) (by decide)⟩

/-!
### Registry status invariant (C6) and load idempotence (C7)
-/

/-- A well-formed artifact directory used by concrete scenarios: the three
required files with one-byte contents. -/
def demoArtifact : FSTree :=
  .dir [("config.json", [0]), ("pytorch_model.bin", [1]), ("tokenizer.json", [2])] []

/-- Registry with model "demo" version "1.0" registered. -/
def demoRegistry : RegistryState :=
  (register_model initRegistry "demo" "/models/demo" demoArtifact "1.0" [] 0).2

/-- The handle the first demo load materializes. -/
def demoHandle : LoadedModel :=
  { handle_id := 0,
    info := { name := "demo", version := "1.0", path := "/models/demo",
              model_hash := calculate_model_hash demoArtifact,
              registered_at := 0, metadata := [], status := "registered" },
    device := "cpu" }

/-- The registry state after the first demo load. -/
def demoLoaded : RegistryState :=
  { registry := demoRegistry.registry,
    active_models := [("demo:1.0", demoHandle)],
    next_handle_id := 1 }

/-- Every descriptor stored in the catalog has status "registered". -/
def registry_statuses_registered (s : RegistryState) : Prop :=
  ∀ kv ∈ s.registry, ∀ vv ∈ kv.2, vv.2.status = "registered"

/-- Every handle in the active-model cache references a descriptor with
status "registered". -/
def handles_status_registered (s : RegistryState) : Prop :=
  ∀ kv ∈ s.active_models, kv.2.info.status = "registered"

theorem get_model_info_status {reg : List (String × List (String × ModelInfo))}
    {n : String} {v : Option String} {info : ModelInfo}
    (hreg : ∀ kv ∈ reg, ∀ vv ∈ kv.2, vv.2.status = "registered")
    (h : get_model_info reg n v = some info) : info.status = "registered" := by
  cases halo : alookup n reg with
  | none => simp [get_model_info, halo] at h
  | some versions =>
    have hmem1 : (n, versions) ∈ reg := alookup_mem halo
    cases v with
    | some v2 =>
      simp only [get_model_info, halo] at h
      exact hreg _ hmem1 _ (alookup_mem h)
    | none =>
      cases hmax : max_version_key versions with
      | none => simp [get_model_info, halo, hmax] at h
      | some v2 =>
        simp only [get_model_info, halo, hmax] at h
        exact hreg _ hmem1 _ (alookup_mem h)

theorem apply_op_preserves_status (s : RegistryState) (op : RegOp)
    (h1 : registry_statuses_registered s) (h2 : handles_status_registered s) :
    registry_statuses_registered (apply_op s op) ∧
    handles_status_registered (apply_op s op) := by
  cases op with
  | register n pth a v m now =>
    simp only [apply_op, register_model]
    split
    · exact ⟨h1, h2⟩
    · refine ⟨?_, h2⟩
      intro kv hkv
      rcases mem_aupsert hkv with hkv1 | hkv1
      · subst hkv1
        intro vv hvv
        rcases mem_aupsert hvv with hvv1 | hvv1
        · subst hvv1; rfl
        · cases halo : alookup n s.registry with
          | none => rw [halo] at hvv1; simp at hvv1
          | some vs =>
            rw [halo] at hvv1
            exact h1 (n, vs) (alookup_mem halo) vv hvv1
      · exact h1 kv hkv1
  | load n v d ok =>
    simp only [apply_op, load_model]
    cases hinfo : get_model_info s.registry n v with
    | none => exact ⟨h1, h2⟩
    | some info =>
      simp only
      cases hact : alookup (model_key n info.version) s.active_models with
      | some lm => exact ⟨h1, h2⟩
      | none =>
        simp only
        cases ok with
        | false => exact ⟨h1, h2⟩
        | true =>
          simp only [if_true]
          refine ⟨h1, ?_⟩
          intro kv hkv
          rcases mem_aupsert hkv with hkv1 | hkv1
          · subst hkv1
            exact get_model_info_status h1 hinfo
          · exact h2 kv hkv1
  | unload n v =>
    simp only [apply_op, unload_model]
    cases hinfo : get_model_info s.registry n v with
    | none => exact ⟨h1, h2⟩
    | some info =>
      refine ⟨h1, ?_⟩
      intro kv hkv
      exact h2 kv (mem_aremove hkv)

theorem run_ops_status (ops : List RegOp) :
    ∀ (s : RegistryState), registry_statuses_registered s →
      handles_status_registered s →
      registry_statuses_registered (run_ops s ops) ∧
      handles_status_registered (run_ops s ops) := by
  induction ops with
  | nil => intro s h1 h2; exact ⟨h1, h2⟩
  | cons op rest ih =>
    intro s h1 h2
    have hstep := apply_op_preserves_status s op h1 h2
    exact ih (apply_op s op) hstep.1 hstep.2

/-- C6 counterexample: register "demo" v"1.0" then load it.  The handle is
in the active cache but its descriptor has status "registered", not
"active": `load_model` never updates the status field. -/
theorem c6_loaded_handle_status_not_active :
    ((run_ops initRegistry
        [.register "demo" "/models/demo" demoArtifact "1.0" [] 0,
         .load "demo" (some "1.0") "cpu" true]).active_models.map
      (fun kv => kv.2.info.status)) = ["registered"] ∧
    ("registered" : String) ≠ "active" := by
  decide

/-- C6 (amended): starting from the empty registry, after any sequence of
register/load/unload operations every handle in the active-model cache
references a descriptor with status "registered" — the only status the
code ever assigns (`load_model` does not mark descriptors active). -/
theorem active_handles_always_registered (ops : List RegOp)
    (kv : String × LoadedModel) (hkv : kv ∈ (run_ops initRegistry ops).active_models) :
    kv.2.info.status = "registered" := by
  have hinit1 : registry_statuses_registered initRegistry := by
    intro kv2 hkv2; simp [initRegistry] at hkv2
  have hinit2 : handles_status_registered initRegistry := by
    intro kv2 hkv2; simp [initRegistry] at hkv2
  exact (run_ops_status ops initRegistry hinit1 hinit2).2 kv hkv

/-- Witness for `active_handles_always_registered`: the register+load
scenario. -/
theorem active_handles_always_registered_witness :
    (("demo:1.0", demoHandle) ∈
      (run_ops initRegistry
        [.register "demo" "/models/demo" demoArtifact "1.0" [] 0,
         .load "demo" (some "1.0") "cpu" true]).active_models) ∧
    ("demo:1.0", demoHandle).2.info.status = "registered" :=
  ⟨by decide,
   active_handles_always_registered
     [.register "demo" "/models/demo" demoArtifact "1.0" [] 0,
      .load "demo" (some "1.0") "cpu" true]
     ("demo:1.0", demoHandle) (by decide)⟩

/-- C7: while a handle is active, `load_model` is idempotent: once a load
has returned a handle, any further load of the same (name, version)
returns the very same handle (same `handle_id`, i.e. the same instance)
and leaves the registry state — in particular the materialization counter
— unchanged: the model and tokenizer are not materialized a second
time. -/
theorem load_model_idempotent (s : RegistryState) (name : String)
    (version : Option String) (device device2 : String) (ok ok2 : Bool)
    (h : LoadedModel) (s1 : RegistryState)
    (hload : load_model s name version device ok = (some h, s1)) :
    load_model s1 name version device2 ok2 = (some h, s1) := by
  unfold load_model at hload ⊢
  cases hinfo : get_model_info s.registry name version with
  | none => rw [hinfo] at hload; cases hload
  | some info =>
    rw [hinfo] at hload
    simp only at hload
    cases hact : alookup (model_key name info.version) s.active_models with
    | some lm =>
      rw [hact] at hload
      simp only [Prod.mk.injEq, Option.some.injEq] at hload
      obtain ⟨rfl, rfl⟩ := hload
      rw [hinfo]
      simp only
      rw [hact]
    | none =>
      rw [hact] at hload
      simp only at hload
      cases ok with
      | false => simp only [if_false, Bool.false_eq_true] at hload; cases hload
      | true =>
        simp only [if_true] at hload
        simp only [Prod.mk.injEq, Option.some.injEq] at hload
        obtain ⟨rfl, rfl⟩ := hload
        have hreg1 : ({ s with
            active_models := aupsert (model_key name info.version)
              { handle_id := s.next_handle_id, info := info, device := device }
              s.active_models,
            next_handle_id := s.next_handle_id + 1 } : RegistryState).registry =
            s.registry := rfl
        rw [hreg1, hinfo]
        simp only
        rw [alookup_aupsert_self]

/-- Witness for `load_model_idempotent`: register "demo" v"1.0", load it,
load again — the same handle instance comes back and the state is
untouched. -/
theorem load_model_idempotent_witness :
    load_model demoRegistry "demo" (some "1.0") "cpu" true = (some demoHandle, demoLoaded) ∧
    load_model demoLoaded "demo" (some "1.0") "cpu" true = (some demoHandle, demoLoaded) :=
  ⟨by decide,
   load_model_idempotent demoRegistry "demo" (some "1.0") "cpu" "cpu" true true
     demoHandle demoLoaded (by decide)⟩

/-!
### Default-version "latest" lookup (C4)
-/

theorem load_and_optimize_latest_fails (q : PipelineState) (name : String)
    (versions : List (String × ModelInfo)) (ok : Bool)
    (hdef : q.default_version = "latest")
    (hreg : alookup name q.reg_state.registry = some versions)
    (hlatest : alookup "latest" versions = none) :
    load_and_optimize_model q (some name) none ok = (none, q) := by
  have hinfo : get_model_info q.reg_state.registry name (some "latest") = none := by
    simp [get_model_info, hreg, hlatest]
  have hload : load_model q.reg_state name (some q.default_version) q.device ok =
      (none, q.reg_state) := by
    rw [hdef]
    unfold load_model
    rw [hinfo]
  unfold load_and_optimize_model load_and_optimize_core
  simp only
  rw [hload]

/-- C4: when model `name` is registered but no version literally called
"latest" exists for it, a `generate` call without an explicit version
always fails on a pipeline whose `default_version` is the default
`'latest'` (and whose response cache is empty): the pipeline substitutes
the string `'latest'`, the registry looks it up as a concrete version key
(never reaching its `max(versions.keys())` fallback, which only runs for
a falsy version), load returns no handle, and `generate` raises
`ValueError`. -/
theorem generate_default_version_always_fails (p : PipelineState) (name : String)
    (versions : List (String × ModelInfo))
    (oracle : List String → ResolvedKwargs → List (String × Nat)) (ok : Bool)
    (lat : ℚ) (prompts : List String) (kw : GenKwargs)
    (hdef : p.default_version = "latest")
    (hreg : alookup name p.reg_state.registry = some versions)
    (hlatest : alookup "latest" versions = none)
    (hcache : p.tokenization_cache = []) :
    (load_and_optimize_model p (some name) none ok).1 = none ∧
    (generate p oracle ok lat prompts (some name) none kw).1 =
      Except.error ("Failed to load model " ++ name ++ ":" ++ "None") := by
  constructor
  · rw [load_and_optimize_latest_fails p name versions ok hdef hreg hlatest]
  · have hl1 : load_and_optimize_model (manage_memory p) (some name) none ok =
        (none, manage_memory p) :=
      load_and_optimize_latest_fails (manage_memory p) name versions ok hdef hreg hlatest
    have hunc : ∀ q : PipelineState,
        load_and_optimize_model q (some name) none ok = (none, q) →
        generate_uncached q oracle ok lat prompts (some name) none kw =
          (Except.error ("Failed to load model " ++ name ++ ":" ++ "None"), q) := by
      intro q hq
      unfold generate_uncached
      rw [hq]
      rfl
    unfold generate
    by_cases hcm : (manage_memory p).cache_models = true
    · rw [if_pos hcm]
      have hcc : check_cache (manage_memory p) prompts kw = (none, manage_memory p) := by
        unfold check_cache
        have hmc : (manage_memory p).tokenization_cache = ([] : List (CacheKey × List GenResult)) := hcache
        rw [hmc]
        rfl
      rw [hcc]
      show (generate_uncached (manage_memory p) oracle ok lat prompts (some name) none kw).1 = _
      rw [hunc (manage_memory p) hl1]
    · rw [if_neg hcm]
      show (generate_uncached (manage_memory p) oracle ok lat prompts (some name) none kw).1 = _
      rw [hunc (manage_memory p) hl1]

/-- Witness for `generate_default_version_always_fails`: the demo registry
holds only version "1.0"; a version-less generate on the default
pipeline fails. -/
theorem generate_default_version_always_fails_witness :
    ((default_pipeline demoRegistry false ⟨0, 0, 0, 0⟩ 0 (some "demo")).default_version = "latest" ∧
     alookup "demo" (default_pipeline demoRegistry false ⟨0, 0, 0, 0⟩ 0 (some "demo")).reg_state.registry =
       some [("1.0", demoHandle.info)]) ∧
    (load_and_optimize_model (default_pipeline demoRegistry false ⟨0, 0, 0, 0⟩ 0 (some "demo"))
       (some "demo") none true).1 = none ∧
    (generate (default_pipeline demoRegistry false ⟨0, 0, 0, 0⟩ 0 (some "demo"))
       (fun b _ => b.map (fun s => (s, 1))) true 0 ["p"] (some "demo") none {}).1 =
      Except.error ("Failed to load model " ++ "demo" ++ ":" ++ "None") :=
  ⟨⟨by decide, by decide⟩,
   generate_default_version_always_fails
     (default_pipeline demoRegistry false ⟨0, 0, 0, 0⟩ 0 (some "demo")) "demo"
     [("1.0", demoHandle.info)] (fun b _ => b.map (fun s => (s, 1))) true 0 ["p"] {}
     rfl (by decide) (by decide) rfl⟩

/-!
### Response cache write-back (C3) and temperature validation (C5)
-/

/-- Pipeline over the demo registry, no CUDA, default settings. -/
def pipelineC3 : PipelineState :=
  default_pipeline demoRegistry false ⟨0, 0, 0, 0⟩ 0 (some "demo")

/-- A deterministic stand-in for the opaque model: echo each prompt with a
"!" suffix, one token per output. -/
def oracleC3 : List String → ResolvedKwargs → List (String × Nat) :=
  fun b _ => b.map (fun s => (s ++ "!", 1))

def genC3_first : Except String (List GenResult) × PipelineState :=
  generate pipelineC3 oracleC3 true 0 ["p"] (some "demo") (some "1.0") {}

def genC3_second : Except String (List GenResult) × PipelineState :=
  generate genC3_first.2 oracleC3 true 0 ["p"] (some "demo") (some "1.0") {}

/-- C3 (code bug): after a successful `generate` whose prompts were not
cached, nothing is written into the response cache — no code path ever
populates `tokenization_cache` (and the `lru_cache`-wrapped
`_generate_cached` is never called) — so an immediately repeated
identical call misses the cache again and invokes the model a second
time instead of being answered from the cache. -/
theorem c3_repeat_generate_invokes_model_again :
    genC3_first.1 = Except.ok
      [{ prompt := "p", generated := "p!", tokens := 1, finish_reason := "stop" }] ∧
    genC3_first.2.tokenization_cache = [] ∧
    genC3_first.2.model_invocations.length = 1 ∧
    genC3_second.1 = genC3_first.1 ∧
    genC3_second.2.tokenization_cache = [] ∧
    genC3_second.2.model_invocations.length = 2 ∧
    genC3_second.2.cache_hits = 0 :=
  ⟨rfl, rfl, rfl, rfl, rfl, rfl, rfl⟩

theorem load_opt_core_invocations (p : PipelineState) (name ver : String) (ok : Bool) :
    (load_and_optimize_core p name ver ok).2.model_invocations = p.model_invocations := by
  rcases hl : load_model p.reg_state name (some ver) p.device ok with ⟨ho, rs⟩
  cases ho with
  | none => simp only [load_and_optimize_core, hl]
  | some h =>
    simp only [load_and_optimize_core, hl]
    split
    · rfl
    · rfl

theorem load_opt_invocations (p : PipelineState) (mn v : Option String) (ok : Bool) :
    (load_and_optimize_model p mn v ok).2.model_invocations = p.model_invocations := by
  unfold load_and_optimize_model
  rcases mn with _ | n
  · rcases hd : p.default_model with _ | dn
    · rfl
    · exact load_opt_core_invocations p dn _ ok
  · exact load_opt_core_invocations p n _ ok

theorem dynamic_batch_invocations (p : PipelineState) (xs : List String) :
    (dynamic_batch p xs).2.model_invocations = p.model_invocations := by
  unfold dynamic_batch
  split
  · rfl
  · split
    · rfl
    · split
      · rfl
      · rfl

theorem check_cache_invocations (p : PipelineState) (prompts : List String)
    (kw : GenKwargs) :
    (check_cache p prompts kw).2.model_invocations = p.model_invocations := by
  cases h : alookup
      ({ prompts := prompts, model_name := p.default_model,
         version := p.default_version, params := kw } : CacheKey)
      p.tokenization_cache with
  | none => simp only [check_cache, h]
  | some r => simp only [check_cache, h]

theorem update_metrics_invocations (p : PipelineState) (n : Nat)
    (r : List GenResult) (lat : ℚ) (p4 : PipelineState)
    (h : update_metrics p n r lat = some p4) :
    p4.model_invocations = p.model_invocations := by
  unfold update_metrics at h
  split at h
  · cases h
  · injection h with h
    rw [← h]

theorem process_batches_invocations
    (oracle : List String → ResolvedKwargs → List (String × Nat))
    (kw : GenKwargs) (inv : Invocation) :
    ∀ (batches : List (List String)) (p : PipelineState),
      inv ∈ (process_batches p oracle batches kw).2.model_invocations →
      inv ∈ p.model_invocations ∨
        inv.kwargs.temperature = kw.temperature.getD (7 / 10) := by
  intro batches
  induction batches with
  | nil => intro p h; exact Or.inl h
  | cons b rest ih =>
    intro p h
    simp only [process_batches, generate_optimized] at h
    rcases ih _ h with h1 | h1
    · rcases List.mem_append.mp h1 with h2 | h2
      · exact Or.inl h2
      · right
        rcases List.mem_singleton.mp h2 with rfl
        rfl
    · exact Or.inr h1

theorem generate_uncached_invocations (p : PipelineState)
    (oracle : List String → ResolvedKwargs → List (String × Nat)) (ok : Bool)
    (lat : ℚ) (prompts : List String) (mn v : Option String) (kw : GenKwargs)
    (inv : Invocation)
    (hinv : inv ∈ (generate_uncached p oracle ok lat prompts mn v kw).2.model_invocations) :
    inv ∈ p.model_invocations ∨
      inv.kwargs.temperature = kw.temperature.getD (7 / 10) := by
  unfold generate_uncached at hinv
  rcases hlo : load_and_optimize_model p mn v ok with ⟨ho, p1⟩
  rw [hlo] at hinv
  have hp1 : p1.model_invocations = p.model_invocations := by
    have hx := load_opt_invocations p mn v ok
    rw [hlo] at hx
    exact hx
  cases ho with
  | none =>
    simp only at hinv
    rw [hp1] at hinv
    exact Or.inl hinv
  | some h =>
    simp only at hinv
    rcases hb : (if p1.dynamic_batching = true then dynamic_batch p1 prompts
        else (batch_inputs p1.max_batch_size prompts, p1)) with ⟨batches, p2⟩
    rw [hb] at hinv
    have hp2 : p2.model_invocations = p.model_invocations := by
      by_cases hd : p1.dynamic_batching = true
      · rw [if_pos hd] at hb
        have hx := dynamic_batch_invocations p1 prompts
        rw [hb] at hx
        rw [hx, hp1]
      · rw [if_neg hd] at hb
        have : p2 = p1 := congrArg Prod.snd hb.symm
        rw [this, hp1]
    rcases hpb : process_batches p2 oracle batches kw with ⟨results, p3⟩
    rw [hpb] at hinv
    have hmem3 : inv ∈ p3.model_invocations →
        inv ∈ p.model_invocations ∨
          inv.kwargs.temperature = kw.temperature.getD (7 / 10) := by
      intro h3
      have hx := process_batches_invocations oracle kw inv batches p2
      rw [hpb] at hx
      rcases hx h3 with h4 | h4
      · rw [hp2] at h4
        exact Or.inl h4
      · exact Or.inr h4
    cases hum : update_metrics p3 prompts.length results lat with
    | none =>
      rw [hum] at hinv
      exact hmem3 hinv
    | some p4 =>
      rw [hum] at hinv
      simp only at hinv
      rw [update_metrics_invocations p3 prompts.length results lat p4 hum] at hinv
      exact hmem3 hinv

/-- C5 (amended): requests with temperature outside [0, 2] are NOT
rejected — no validation exists anywhere on the path: every model
invocation a `generate` call adds carries exactly the request's
temperature (default 0.7 when unspecified), whatever its value, so an
out-of-range temperature reaches the model unchanged. -/
theorem generate_passes_temperature_through (p : PipelineState)
    (oracle : List String → ResolvedKwargs → List (String × Nat)) (ok : Bool)
    (lat : ℚ) (prompts : List String) (mn v : Option String) (kw : GenKwargs)
    (inv : Invocation)
    (hinv : inv ∈ (generate p oracle ok lat prompts mn v kw).2.model_invocations) :
    inv ∈ p.model_invocations ∨
      inv.kwargs.temperature = kw.temperature.getD (7 / 10) := by
  unfold generate at hinv
  have hmm : (manage_memory p).model_invocations = p.model_invocations := rfl
  by_cases hcm : (manage_memory p).cache_models = true
  · rw [if_pos hcm] at hinv
    rcases hcc : check_cache (manage_memory p) prompts kw with ⟨co, p2⟩
    rw [hcc] at hinv
    have hp2 : p2.model_invocations = p.model_invocations := by
      have hx := check_cache_invocations (manage_memory p) prompts kw
      rw [hcc] at hx
      rw [hx, hmm]
    cases co with
    | none =>
      simp only at hinv
      rcases generate_uncached_invocations p2 oracle ok lat prompts mn v kw inv hinv with h1 | h1
      · rw [hp2] at h1; exact Or.inl h1
      · exact Or.inr h1
    | some cached =>
      simp only at hinv
      by_cases hce : cached = []
      · rw [if_pos hce] at hinv
        rcases generate_uncached_invocations p2 oracle ok lat prompts mn v kw inv hinv with h1 | h1
        · rw [hp2] at h1; exact Or.inl h1
        · exact Or.inr h1
      · rw [if_neg hce] at hinv
        rw [hp2] at hinv
        exact Or.inl hinv
  · rw [if_neg hcm] at hinv
    rcases generate_uncached_invocations (manage_memory p) oracle ok lat prompts mn v kw inv hinv with h1 | h1
    · rw [hmm] at h1; exact Or.inl h1
    · exact Or.inr h1

/-- The request kwargs of the C5 scenario: temperature 5. -/
def kwC5 : GenKwargs := { temperature := some 5 }

/-- The single model invocation the C5 scenario produces. -/
def invC5 : Invocation :=
  { batch := ["p"],
    kwargs := { max_length := 512, num_return_sequences := 1, temperature := 5,
                top_p := 9 / 10, top_k := 50, do_sample := true } }

def genC5 : Except String (List GenResult) × PipelineState :=
  generate pipelineC3 oracleC3 true 0 ["p"] (some "demo") (some "1.0") kwC5

/-- C5 counterexample: a generation request with temperature 5 ∉ [0, 2]
is not rejected with `ValidationError`: the call succeeds, a batch
containing the request is formed, and the model's generate capability is
invoked with temperature 5. -/
theorem c5_out_of_range_temperature_reaches_model :
    ¬ ((0 : ℚ) ≤ 5 ∧ (5 : ℚ) ≤ 2) ∧
    genC5.1 = Except.ok
      [{ prompt := "p", generated := "p!", tokens := 1, finish_reason := "stop" }] ∧
    genC5.2.model_invocations = [invC5] ∧
    invC5.batch = ["p"] ∧ invC5.kwargs.temperature = 5 :=
  ⟨by norm_num, rfl, rfl, rfl, rfl⟩

/-- Witness for `generate_passes_temperature_through` at the C5
scenario. -/
theorem generate_passes_temperature_through_witness :
    (invC5 ∈ (generate pipelineC3 oracleC3 true 0 ["p"] (some "demo") (some "1.0") kwC5).2.model_invocations) ∧
    (invC5 ∈ pipelineC3.model_invocations ∨
      invC5.kwargs.temperature = kwC5.temperature.getD (7 / 10)) := by
  have hm : invC5 ∈ (generate pipelineC3 oracleC3 true 0 ["p"] (some "demo") (some "1.0") kwC5).2.model_invocations := by
    rw [show (generate pipelineC3 oracleC3 true 0 ["p"] (some "demo") (some "1.0") kwC5).2.model_invocations = [invC5] from rfl]
    exact List.mem_singleton_self _
  exact ⟨hm, generate_passes_temperature_through pipelineC3 oracleC3 true 0 ["p"]
    (some "demo") (some "1.0") kwC5 invC5 hm⟩

/-!
### Content hash vs. byte content (C9)
-/

theorem string_data_inj {a b : String} (h : a.data = b.data) : a = b := by
  cases a
  cases b
  exact congrArg String.mk h

/-- Strict version of `fileLe`: smaller filename, distinct filenames. -/
def fileLt (a b : String × List Nat) : Prop := fileLe a b ∧ a.1 ≠ b.1

instance : IsAntisymm (String × List Nat) fileLt :=
  ⟨fun a b h1 h2 =>
    absurd (string_data_inj (charListLe_antisymm h1.1 h2.1)) h1.2⟩

theorem sortFilesByName_eq_of_perm {f1 f2 : List (String × List Nat)}
    (hperm : f1.Perm f2) (hnodup : (f1.map Prod.fst).Nodup) :
    sortFilesByName f1 = sortFilesByName f2 := by
  have hp : (sortFilesByName f1).Perm (sortFilesByName f2) :=
    (List.perm_insertionSort fileLe f1).trans
      (hperm.trans (List.perm_insertionSort fileLe f2).symm)
  have hs1 : List.Sorted fileLe (sortFilesByName f1) :=
    List.sorted_insertionSort fileLe f1
  have hs2 : List.Sorted fileLe (sortFilesByName f2) :=
    List.sorted_insertionSort fileLe f2
  have hn1 : ((sortFilesByName f1).map Prod.fst).Nodup :=
    (((List.perm_insertionSort fileLe f1).map Prod.fst).nodup_iff).mpr hnodup
  have hn2 : ((sortFilesByName f2).map Prod.fst).Nodup := by
    have hnodup2 : (f2.map Prod.fst).Nodup :=
      ((hperm.map Prod.fst).nodup_iff).mp hnodup
    exact (((List.perm_insertionSort fileLe f2).map Prod.fst).nodup_iff).mpr hnodup2
  have hlt1 : List.Sorted fileLt (sortFilesByName f1) := by
    have hpw : List.Pairwise (fun a b : String × List Nat => a.1 ≠ b.1)
        (sortFilesByName f1) := List.pairwise_map.mp hn1
    exact hs1.and hpw
  have hlt2 : List.Sorted fileLt (sortFilesByName f2) := by
    have hpw : List.Pairwise (fun a b : String × List Nat => a.1 ≠ b.1)
        (sortFilesByName f2) := List.pairwise_map.mp hn2
    exact hs2.and hpw
  exact List.eq_of_perm_of_sorted hp hlt1 hlt2

/-- Artifact copy with subdirectory "a" enumerated before "b". -/
def artifactOrder1 : FSTree :=
  .dir [] [("a", .dir [("f", [1])] []), ("b", .dir [("f", [2])] [])]

/-- The same byte content with the subdirectories enumerated in the other
order (as a second on-disk copy may be). -/
def artifactOrder2 : FSTree :=
  .dir [] [("b", .dir [("f", [2])] []), ("a", .dir [("f", [1])] [])]

/-- C9 counterexample: two artifact directories with identical byte
content (the same relative paths a/f ↦ [1], b/f ↦ [2]) whose hash
computation streams different byte sequences through the digest ([1, 2]
vs. [2, 1]), because `_calculate_model_hash` sorts only the filenames
within each directory while `os.walk` enumerates subdirectories in
unspecified order — the stream is not in sorted path order, and the
content hashes are not guaranteed equal. -/
theorem c9_walk_order_breaks_content_hash :
    (content_list artifactOrder1).Perm (content_list artifactOrder2) ∧
    calculate_model_hash artifactOrder1 ≠ calculate_model_hash artifactOrder2 := by
  constructor
  · decide
  · decide

/-- C9 (amended): for flat artifact directories (no subdirectories — the
layout `_validate_model_files` expects, config/weights/tokenizer at top
level), identical byte content does give identical hashes: the file list
is sorted by name, so any two permutations of the same (filename, bytes)
pairs with distinct filenames stream the same bytes through the digest.
With subdirectories, equality is only guaranteed when both walks
enumerate directories in the same order. -/
theorem flat_artifact_hash_content_determined (f1 f2 : List (String × List Nat))
    (hperm : f1.Perm f2) (hnodup : (f1.map Prod.fst).Nodup) :
    calculate_model_hash (.dir f1 []) = calculate_model_hash (.dir f2 []) := by
  simp only [calculate_model_hash, walk_stream, walk_subdirs]
  rw [sortFilesByName_eq_of_perm hperm hnodup]

/-- Witness for `flat_artifact_hash_content_determined`: two enumeration
orders of the same two files hash identically. -/
theorem flat_artifact_hash_content_determined_witness :
    (([("pytorch_model.bin", [1]), ("config.json", [0])] :
        List (String × List Nat)).Perm
       [("config.json", [0]), ("pytorch_model.bin", [1])] ∧
     (([("pytorch_model.bin", [1]), ("config.json", [0])] :
        List (String × List Nat)).map Prod.fst).Nodup) ∧
    calculate_model_hash (.dir [("pytorch_model.bin", [1]), ("config.json", [0])] []) =
      calculate_model_hash (.dir [("config.json", [0]), ("pytorch_model.bin", [1])] []) :=
  ⟨⟨by decide, by decide⟩,
   flat_artifact_hash_content_determined
     [("pytorch_model.bin", [1]), ("config.json", [0])]
     [("config.json", [0]), ("pytorch_model.bin", [1])]
     (by decide) (by decide)⟩

end ModelLLM
